import Mathlib

/-!
# Landing page script (`src/script.js`)

A shallow embedding of the client-side script: the mobile nav toggle, the
in-page anchor handler, reveal on scroll, and the contact form with its
validation, followed by the properties proved about them.

JavaScript strings that come from the user (form field values) are modelled as
their sequence of UTF-16 code units, so that `length`, `trim` and the regular
expression see exactly what the engine sees.  Constant texts (attribute values,
class names, status messages) are Lean strings.
-/

namespace LandingPage

/-! ## Strings -/

/-- A JavaScript string as its sequence of UTF-16 code units. -/
abbrev JSString := List Nat

/-- UTF-16 encoding of one code point. -/
def utf16 (c : Char) : List Nat :=
  if c.toNat < 65536 then [c.toNat]
  else [55296 + (c.toNat - 65536) / 1024, 56320 + (c.toNat - 65536) % 1024]

/-- The JavaScript string denoted by a literal. -/
def str (s : String) : JSString :=
  (s.toList.map utf16).flatten

/-- Code unit of `@`. -/
def AT : Nat := 64

/-- Code unit of `.`. -/
def DOT : Nat := 46

/-- The class `\s` of a regular expression, which is also what `trim` strips:
ECMAScript WhiteSpace and LineTerminator. -/
def isSpace (c : Nat) : Bool :=
  c == 9 || c == 10 || c == 11 || c == 12 || c == 13 || c == 32 || c == 160 ||
  c == 5760 || (8192 ≤ c && c ≤ 8202) || c == 8232 || c == 8233 || c == 8239 ||
  c == 8287 || c == 12288 || c == 65279

/-- `String.prototype.trim`. -/
def trim (s : JSString) : JSString :=
  ((s.dropWhile isSpace).reverse.dropWhile isSpace).reverse

/-- The character classes the email pattern distinguishes. -/
inductive Cls where
  | space
  | at
  | dot
  | other
  deriving DecidableEq

/-- The class of a code unit with respect to `\s`, `@` and `\.`. -/
def classify (c : Nat) : Cls :=
  if isSpace c then Cls.space
  else if c = AT then Cls.at
  else if c = DOT then Cls.dot
  else Cls.other

/-- The class `[^\s@]`. -/
def notSpaceAt : RegularExpression Cls :=
  RegularExpression.char Cls.dot + RegularExpression.char Cls.other

/-- The quantifier `+`. -/
def oneOrMore (r : RegularExpression Cls) : RegularExpression Cls :=
  r * RegularExpression.star r

/-- The pattern `^[^\s@]+@[^\s@]+\.[^\s@]+$` over character classes. -/
def emailPattern : RegularExpression Cls :=
  oneOrMore notSpaceAt * RegularExpression.char Cls.at * oneOrMore notSpaceAt *
    RegularExpression.char Cls.dot * oneOrMore notSpaceAt

/-- `RegExp.prototype.test` for the anchored email pattern. -/
def testEmailPattern (s : JSString) : Bool :=
  emailPattern.rmatch (s.map classify)

/-- A case conversion of the host (`toLowerCase`, `toUpperCase`) applied with
the case-mapping table `f`: the unit `c` standing between `before` and `after`
is replaced by `f before c after`. -/
def caseMap (f : JSString → Nat → JSString → JSString) (before : JSString) :
    JSString → JSString
  | [] => []
  | c :: rest => f before c rest ++ caseMap f (before ++ [c]) rest

/-- `String.prototype.toLowerCase` over the host's table `lower`. -/
def toLowerCase (lower : JSString → Nat → JSString → JSString) (s : JSString) : JSString :=
  caseMap lower [] s

/-- Source `isValidEmail(email)`:
`/^[^\s@]+@[^\s@]+\.[^\s@]+$/.test(String(email).toLowerCase())`. -/
def isValidEmail (lower : JSString → Nat → JSString → JSString) (email : JSString) : Bool :=
  testEmailPattern (toLowerCase lower email)

/-- The ASCII part of the case-mapping table: `A`..`Z` go to `a`..`z`. -/
def asciiLower (_before : JSString) (c : Nat) (_after : JSString) : JSString :=
  if 65 ≤ c ∧ c ≤ 90 then [c + 32] else [c]

/-- The ASCII part of the upper-case table: `a`..`z` go to `A`..`Z`. -/
def asciiUpper (_before : JSString) (c : Nat) (_after : JSString) : JSString :=
  if 97 ≤ c ∧ c ≤ 122 then [c - 32] else [c]

/-- A unit the email pattern treats specially: white space, `@` or `.`. -/
def isSpecial (c : Nat) : Bool :=
  isSpace c || c == AT || c == DOT

/-- What Unicode case mapping guarantees and the email check relies on: white
space, `@` and `.` have no case, and every other unit is mapped to at least one
unit, none of them white space, `@` or `.`. -/
def CaseTable (f : JSString → Nat → JSString → JSString) : Prop :=
  ∀ before c after,
    (isSpecial c = true → f before c after = [c]) ∧
    (isSpecial c = false →
      f before c after ≠ [] ∧ ∀ u ∈ f before c after, isSpecial u = false)

/-- The shape `local@domain.tld` in the words of the specification: no white
space, exactly one `@`, something before it, and after it a `.` that is
neither the first nor the last character. -/
def EmailShape (e : JSString) : Prop :=
  (∀ c ∈ e, isSpace c = false) ∧ e.count AT = 1 ∧
    ∃ loc dom, e = loc ++ AT :: dom ∧ loc ≠ [] ∧
      ∃ a b, dom = a ++ DOT :: b ∧ a ≠ [] ∧ b ≠ []


/-- A non-empty run of units admitted by `[^\s@]`. -/
def Plain (x : JSString) : Prop :=
  x ≠ [] ∧ ∀ c ∈ x, isSpace c = false ∧ c ≠ AT

/-- A non-empty run of classes admitted by `[^\s@]`. -/
def PlainCls (x : List Cls) : Prop :=
  x ≠ [] ∧ ∀ c ∈ x, c = Cls.dot ∨ c = Cls.other

/-- The strings the pattern accepts, written as a decomposition. -/
def RegexShape (s : JSString) : Prop :=
  ∃ l a b, s = l ++ AT :: (a ++ DOT :: b) ∧ Plain l ∧ Plain a ∧ Plain b

/-- The effect of a case conversion as far as the pattern can see it: special
units stay, every other unit becomes a non-empty run of non-special units. -/
inductive Expands : JSString → JSString → Prop
  | nil : Expands [] []
  | keep (c : Nat) (s t : JSString) :
      isSpecial c = true → Expands s t → Expands (c :: s) (c :: t)
  | grow (c : Nat) (w s t : JSString) :
      isSpecial c = false → w ≠ [] → (∀ u ∈ w, isSpecial u = false) →
      Expands s t → Expands (c :: s) (w ++ t)

/-! ## DOM -/

/-- Source `classList.contains(token)`. -/
def classContains (cl : List String) (token : String) : Bool :=
  decide (token ∈ cl)

/-- Source `classList.add(token)`. -/
def classAdd (cl : List String) (token : String) : List String :=
  if token ∈ cl then cl else cl ++ [token]

/-- Source `classList.remove(token)`. -/
def classRemove (cl : List String) (token : String) : List String :=
  cl.filter (fun t => t != token)

/-- Source `classList.toggle(token)`. -/
def classToggle (cl : List String) (token : String) : List String :=
  if token ∈ cl then classRemove cl token else cl ++ [token]

/-- Source `String(b)` for a boolean. -/
def boolString (b : Bool) : String :=
  if b then "true" else "false"

/-- What the handlers read of an element on the way from a click target to the
root: its `tagName` and its `href` attribute. -/
structure Node where
  tagName : String
  href : Option String
  deriving DecidableEq

/-- A click event: its target and the target's ancestors, parent first. -/
structure Click where
  target : Node
  ancestors : List Node
  deriving DecidableEq

/-- What `document.querySelector(sel)` does: throw on an invalid selector,
return `null`, or return an element. -/
inductive Query where
  | invalid
  | missing
  | found (id : Nat)
  deriving DecidableEq

/-- The element `#nav-toggle`. -/
structure ToggleEl where
  ariaExpanded : Option String
  deriving DecidableEq

/-- The element `#nav-list`. -/
structure ListEl where
  classList : List String
  deriving DecidableEq

/-- An element matched by `[data-reveal]`. -/
structure RevealEl where
  id : Nat
  classList : List String
  deriving DecidableEq

/-- An `IntersectionObserverEntry`. -/
structure Entry where
  target : Nat
  isIntersecting : Bool
  deriving DecidableEq

/-- A form control with its current and its default value. -/
structure Field where
  value : JSString
  defaultValue : JSString
  deriving DecidableEq

/-- The submit button of the form. -/
structure Button where
  disabled : Bool
  textContent : String
  deriving DecidableEq

/-- The element `#form-status`. -/
structure StatusEl where
  textContent : String
  color : String
  ariaLive : Option String
  deriving DecidableEq

/-- The element `#contact-form` with its three named controls and the result of
`form.querySelector('button[type="submit"]')`. -/
structure Form where
  name : Field
  email : Field
  message : Field
  submitBtn : Option Button
  deriving DecidableEq

/-- The element on which `focus()` was called last. -/
inductive Focus where
  | nameField
  | emailField
  | messageField
  | formStatus
  | element (id : Nat)
  deriving DecidableEq

/-- The two callbacks the script hands to `setTimeout`. -/
inductive TimerAction where
  | removeTabindex (id : Nat)
  | finishSend
  deriving DecidableEq

/-- A pending `setTimeout` with its delay in milliseconds. -/
structure Timer where
  delay : Nat
  action : TimerAction
  deriving DecidableEq

/-- The exceptions a handler can end with. -/
inductive JSError where
  | typeError
  | selectorError
  deriving DecidableEq

/-- The page as the script sees it.  The first block is the markup (an absent
element is `none`), the second what the script and its handlers leave behind. -/
structure Page where
  navToggle : Option ToggleEl
  navList : Option ListEl
  revealElements : List RevealEl
  hasIntersectionObserver : Bool
  form : Option Form
  formStatus : Option StatusEl
  yearEl : Option String
  observerCreated : Bool
  observed : List Nat
  tabindex : List (Nat × String)
  scrolled : List Nat
  focused : Option Focus
  timers : List Timer
  defaultPrevented : Bool
  deriving DecidableEq

/-- The host: the case-mapping table behind `toLowerCase`, the selector engine
behind `document.querySelector`, and the text of `new Date().getFullYear()`. -/
structure Host where
  lower : JSString → Nat → JSString → JSString
  querySelector : String → Query
  year : String

/-- How a handler ends: the page it leaves, and the exception if it threw. -/
structure Outcome where
  page : Page
  error : Option JSError
  deriving DecidableEq

/-- Normal completion. -/
def Outcome.ok (p : Page) : Outcome :=
  ⟨p, none⟩

/-- Sequencing: what follows a statement runs only if it did not throw. -/
def Outcome.andThen (o : Outcome) (k : Page → Outcome) : Outcome :=
  match o.error with
  | some _ => o
  | none => k o.page

/-! ## Mobile nav toggle -/

/-- The two elements the nav listeners work on; the listeners are attached only
when both exist. -/
structure Nav where
  ariaExpanded : Option String
  classList : List String
  deriving DecidableEq

/-- The click listener of `#nav-toggle`. -/
def navToggleClick (n : Nav) : Nav :=
  let expanded := n.ariaExpanded == some "true"
  { ariaExpanded := some (boolString (!expanded))
    classList := classToggle n.classList "open" }

/-- The click listener of `#nav-list`. -/
def navListClick (e : Click) (n : Nav) : Nav :=
  if e.target.tagName == "A" && classContains n.classList "open" then
    { ariaExpanded := some "false"
      classList := classRemove n.classList "open" }
  else n

/-- A nav listener on the page: nothing is attached unless both elements exist. -/
def onNav (f : Nav → Nav) (p : Page) : Page :=
  match p.navToggle, p.navList with
  | some t, some l =>
    let n := f ⟨t.ariaExpanded, l.classList⟩
    { p with navToggle := some ⟨n.ariaExpanded⟩, navList := some ⟨n.classList⟩ }
  | _, _ => p

/-- The operations of the nav component. -/
inductive NavOp where
  | toggle
  | listClick (e : Click)
  deriving DecidableEq

/-- One operation of the nav component. -/
def navStep (n : Nav) : NavOp → Nav
  | NavOp.toggle => navToggleClick n
  | NavOp.listClick e => navListClick e n

/-- The attribute and the class agree. -/
def NavConsistent (n : Nav) : Prop :=
  n.ariaExpanded = some "true" ↔ "open" ∈ n.classList

/-- The click target is a link or lies inside one. -/
def inLink (e : Click) : Bool :=
  (e.target :: e.ancestors).any (fun n => n.tagName == "A")

/-! ## Smooth scroll for internal links -/

/-- The attribute test `[href^="#"]`. -/
def startsWithHash (href : String) : Bool :=
  href.toList.head? == some '#'

/-- The selector `a[href^="#"]` on one element, giving its `href`. -/
def hashHref (n : Node) : Option String :=
  if n.tagName == "A" then
    match n.href with
    | some href => if startsWithHash href then some href else none
    | none => none
  else none

/-- Source `e.target.closest('a[href^="#"]')` followed by
`anchor.getAttribute('href')`. -/
def closestHashHref (e : Click) : Option String :=
  (e.target :: e.ancestors).findSome? hashHref

/-- Source `target.setAttribute('tabindex', value)`. -/
def setTabindex (id : Nat) (value : String) (attrs : List (Nat × String)) :
    List (Nat × String) :=
  (id, value) :: attrs.filter (fun a => a.1 != id)

/-- Source `target.removeAttribute('tabindex')`. -/
def removeTabindex (id : Nat) (attrs : List (Nat × String)) : List (Nat × String) :=
  attrs.filter (fun a => a.1 != id)

/-- The click listener of `document`. -/
def documentClick (h : Host) (e : Click) (p : Page) : Outcome :=
  match closestHashHref e with
  | none => Outcome.ok p
  | some href =>
    if href == "#" || href == "#!" then Outcome.ok p
    else
      match h.querySelector href with
      | Query.invalid => ⟨p, some JSError.selectorError⟩
      | Query.missing => Outcome.ok p
      | Query.found target =>
        Outcome.ok
          { p with
            defaultPrevented := true
            scrolled := p.scrolled ++ [target]
            tabindex := setTabindex target "-1" p.tabindex
            focused := some (Focus.element target)
            timers := p.timers ++ [⟨1000, TimerAction.removeTabindex target⟩] }

/-! ## Reveal on scroll -/

/-- Source `el.classList.add('is-visible')` on the element `id`. -/
def reveal (id : Nat) (els : List RevealEl) : List RevealEl :=
  els.map (fun el =>
    if el.id = id then { el with classList := classAdd el.classList "is-visible" } else el)

/-- The body of the observer callback for one entry. -/
def onEntry (p : Page) (entry : Entry) : Page :=
  if entry.isIntersecting then
    { p with
      revealElements := reveal entry.target p.revealElements
      observed := p.observed.filter (fun id => id != entry.target) }
  else p

/-- The `IntersectionObserver` callback: `entries.forEach(...)`. -/
def onIntersect (entries : List Entry) (p : Page) : Page :=
  entries.foldl onEntry p

/-- The reveal block of the script body. -/
def initReveal (p : Page) : Page :=
  if p.hasIntersectionObserver && p.revealElements.length != 0 then
    { p with
      observerCreated := true
      observed := p.observed ++ p.revealElements.map (fun el => el.id) }
  else
    { p with
      revealElements := p.revealElements.map (fun el =>
        { el with classList := classAdd el.classList "is-visible" }) }

/-! ## Contact form -/

/-- Source `setStatus(message, isError)`. -/
def setStatus (message : String) (isError : Bool) (p : Page) : Outcome :=
  match p.formStatus with
  | none => ⟨p, some JSError.typeError⟩
  | some st =>
    Outcome.ok
      { p with
        formStatus := some
          { st with
            textContent := message
            color := if isError then "#ffb4a6" else "var(--muted)"
            ariaLive := some "polite" } }

/-- Source `form.reset()`: every control goes back to its default value. -/
def Form.reset (f : Form) : Form :=
  { f with
    name := { f.name with value := f.name.defaultValue }
    email := { f.email with value := f.email.defaultValue }
    message := { f.message with value := f.message.defaultValue } }

/-- The text shown after the simulated send. -/
def successMessage : String :=
  "Thanks! Your message has been sent. We will contact you within 2 business days."

/-- The submit listener of `#contact-form`. -/
def onSubmit (h : Host) (p : Page) : Outcome :=
  match p.form with
  | none => Outcome.ok p
  | some form =>
    let p := { p with defaultPrevented := true }
    let name := trim form.name.value
    let email := trim form.email.value
    let message := trim form.message.value
    if name.isEmpty then
      (setStatus "Please enter your name." true p).andThen fun p =>
        Outcome.ok { p with focused := some Focus.nameField }
    else if email.isEmpty || !isValidEmail h.lower email then
      (setStatus "Please enter a valid email address." true p).andThen fun p =>
        Outcome.ok { p with focused := some Focus.emailField }
    else if message.isEmpty || decide (message.length < 10) then
      (setStatus "Message must be at least 10 characters." true p).andThen fun p =>
        Outcome.ok { p with focused := some Focus.messageField }
    else
      (setStatus "Sending message…" false p).andThen fun p =>
        match form.submitBtn with
        | none => ⟨p, some JSError.typeError⟩
        | some _ =>
          Outcome.ok
            { p with
              form := some { form with submitBtn := some ⟨true, "Sending…"⟩ }
              timers := p.timers ++ [⟨1100, TimerAction.finishSend⟩] }

/-- The callback of the simulated send.  It is created only by an accepted
submission, after `submitBtn.disabled = true` went through, so the form and the
button it closes over exist whenever it runs; the branches for their absence
are given for totality. -/
def finishSend (p : Page) : Outcome :=
  (setStatus successMessage false p).andThen fun p =>
    match p.form with
    | none => Outcome.ok p
    | some form =>
      match form.reset.submitBtn with
      | none => ⟨{ p with form := some form.reset }, some JSError.typeError⟩
      | some _ =>
        Outcome.ok
          { p with
            form := some { form.reset with submitBtn := some ⟨false, "Send Message"⟩ }
            focused := some Focus.formStatus }

/-- The `input` and `change` listeners of `#contact-form`. -/
def onInput (p : Page) : Outcome :=
  match p.form with
  | none => Outcome.ok p
  | some _ =>
    match p.formStatus with
    | none => ⟨p, some JSError.typeError⟩
    | some st =>
      if st.textContent != "" then
        Outcome.ok { p with formStatus := some { st with textContent := "" } }
      else Outcome.ok p

/-! ## The script body and the event loop -/

/-- The footer block of the script body. -/
def initYear (h : Host) (p : Page) : Page :=
  match p.yearEl with
  | none => p
  | some _ => { p with yearEl := some h.year }

/-- The script body: what runs once when the page loads. -/
def init (h : Host) (p : Page) : Page :=
  initYear h (initReveal p)

/-- A callback handed to `setTimeout`, when it runs. -/
def runTimer (a : TimerAction) (p : Page) : Outcome :=
  match a with
  | TimerAction.removeTabindex id =>
    Outcome.ok { p with tabindex := removeTabindex id p.tabindex }
  | TimerAction.finishSend => finishSend p

/-- What can happen to the page after the script has run. -/
inductive Event where
  | click (e : Click) (onToggle inNavList : Bool)
  | intersect (entries : List Entry)
  | edit (name email message : JSString)
  | submit
  | timer (i : Nat)
  deriving DecidableEq

/-- The user changes the controls of the form. -/
def setFields (name email message : JSString) (p : Page) : Page :=
  match p.form with
  | none => p
  | some f =>
    { p with
      form := some
        { f with
          name := { f.name with value := name }
          email := { f.email with value := email }
          message := { f.message with value := message } } }

/-- One turn of the event loop.  A click reaches the listener of the toggle
when it lands on it, the listener of the list when it lands inside it, and the
listener of the document always. -/
def dispatch (h : Host) (ev : Event) (p : Page) : Outcome :=
  match ev with
  | Event.click e onToggle inNavList =>
    let p := { p with defaultPrevented := false }
    let p := if onToggle then onNav navToggleClick p else p
    let p := if inNavList then onNav (navListClick e) p else p
    documentClick h e p
  | Event.intersect entries =>
    if p.observerCreated then Outcome.ok (onIntersect entries p) else Outcome.ok p
  | Event.edit name email message => onInput (setFields name email message p)
  | Event.submit => onSubmit h { p with defaultPrevented := false }
  | Event.timer i =>
    match p.timers.get? i with
    | none => Outcome.ok p
    | some t => runTimer t.action { p with timers := p.timers.eraseIdx i }

/-- The page after a sequence of events; an exception ends one handler, not
the event loop. -/
def run (h : Host) (evs : List Event) (p : Page) : Page :=
  evs.foldl (fun q ev => (dispatch h ev q).page) p

/-- A host with the ASCII case table, no element for any selector, and a year. -/
def asciiHost : Host :=
  ⟨asciiLower, fun _ => Query.missing, "2025"⟩

/-- An empty control. -/
def emptyField : Field :=
  ⟨[], []⟩

/-- A page with the given markup, before the script has run. -/
def markup (navToggle : Option ToggleEl) (navList : Option ListEl)
    (revealElements : List RevealEl) (hasIntersectionObserver : Bool)
    (form : Option Form) (formStatus : Option StatusEl) (yearEl : Option String) : Page :=
  { navToggle := navToggle
    navList := navList
    revealElements := revealElements
    hasIntersectionObserver := hasIntersectionObserver
    form := form
    formStatus := formStatus
    yearEl := yearEl
    observerCreated := false
    observed := []
    tabindex := []
    scrolled := []
    focused := none
    timers := []
    defaultPrevented := false }

/-! ## Pages and notions used in the statements -/

/-- A page with the contact form, its status region and its submit button, the
three controls holding the given texts. -/
def formPage (name email message : String) : Page :=
  markup none none [] false
    (some ⟨⟨str name, []⟩, ⟨str email, []⟩, ⟨str message, []⟩, some ⟨false, "Send Message"⟩⟩)
    (some ⟨"", "", none⟩) none

/-- The element `id` is reveal-flagged and carries the class `is-visible`. -/
def visible (id : Nat) (p : Page) : Bool :=
  p.revealElements.any (fun el => el.id == id && classContains el.classList "is-visible")

/-- The pages a sequence of events goes through, the starting page first. -/
def trace (h : Host) : List Event → Page → List Page
  | [], p => [p]
  | ev :: evs, p => p :: trace h evs (dispatch h ev p).page

/-- The number of places where a sequence of flags goes from false to true. -/
def risingEdges : List Bool → Nat
  | a :: b :: rest => (if !a && b then 1 else 0) + risingEdges (b :: rest)
  | _ => 0

/-- A page with two reveal-flagged elements, the second already revealed. -/
def revealPage (hasIntersectionObserver : Bool) : Page :=
  markup none none [⟨1, ["card"]⟩, ⟨2, ["card", "is-visible"]⟩] hasIntersectionObserver
    none none none

/-! ## The email pattern: properties -/

theorem notSpaceAt_rmatch (t : List Cls) :
    notSpaceAt.rmatch t = true ↔ t = [Cls.dot] ∨ t = [Cls.other] := by
  unfold notSpaceAt
  rw [RegularExpression.add_rmatch_iff, RegularExpression.char_rmatch_iff,
    RegularExpression.char_rmatch_iff]

theorem star_notSpaceAt_rmatch (u : List Cls) :
    (RegularExpression.star notSpaceAt).rmatch u = true ↔
      ∀ c ∈ u, c = Cls.dot ∨ c = Cls.other := by
  rw [RegularExpression.star_rmatch_iff]
  constructor
  · rintro ⟨S, rfl, hS⟩ c hc
    obtain ⟨t, ht, hct⟩ := List.mem_flatten.1 hc
    rcases (notSpaceAt_rmatch t).1 (hS t ht).2 with h | h <;> subst h <;>
      simp at hct <;> simp [hct]
  · intro h
    refine ⟨u.map (fun c => [c]), ?_, ?_⟩
    · clear h
      induction u with
      | nil => rfl
      | cons c u ih => simp [List.flatten] at ih ⊢; exact ih
    · intro t ht
      obtain ⟨c, hc, rfl⟩ := List.mem_map.1 ht
      refine ⟨by simp, (notSpaceAt_rmatch _).2 ?_⟩
      rcases h c hc with h | h <;> simp [h]

theorem oneOrMore_notSpaceAt_rmatch (x : List Cls) :
    (oneOrMore notSpaceAt).rmatch x = true ↔ PlainCls x := by
  unfold oneOrMore PlainCls
  rw [RegularExpression.mul_rmatch_iff]
  constructor
  · rintro ⟨t, u, rfl, ht, hu⟩
    rw [star_notSpaceAt_rmatch] at hu
    rcases (notSpaceAt_rmatch t).1 ht with h | h <;> subst h <;>
      refine ⟨by simp, ?_⟩ <;> intro c hc <;> simp at hc <;>
      rcases hc with hc | hc <;> first | exact hu c hc | simp [hc]
  · rintro ⟨hne, h⟩
    cases x with
    | nil => exact absurd rfl hne
    | cons c u =>
      refine ⟨[c], u, rfl, (notSpaceAt_rmatch _).2 ?_, (star_notSpaceAt_rmatch u).2 ?_⟩
      · rcases h c (by simp) with h | h <;> simp [h]
      · intro d hd
        exact h d (by simp [hd])

theorem emailPattern_rmatch (cs : List Cls) :
    emailPattern.rmatch cs = true ↔
      ∃ l a b, cs = l ++ Cls.at :: (a ++ Cls.dot :: b) ∧
        PlainCls l ∧ PlainCls a ∧ PlainCls b := by
  unfold emailPattern
  simp only [RegularExpression.mul_rmatch_iff, RegularExpression.char_rmatch_iff,
    oneOrMore_notSpaceAt_rmatch]
  constructor
  · rintro ⟨t, b, rfl, ⟨t, d, rfl, ⟨t, a, rfl, ⟨l, t, rfl, hl, rfl⟩, ha⟩, rfl⟩, hb⟩
    exact ⟨l, a, b, by simp, hl, ha, hb⟩
  · rintro ⟨l, a, b, rfl, hl, ha, hb⟩
    exact ⟨_, b, by simp, ⟨_, _, rfl, ⟨_, a, rfl, ⟨l, _, rfl, hl, rfl⟩, ha⟩, rfl⟩, hb⟩

theorem classify_eq_at (c : Nat) : classify c = Cls.at ↔ c = AT := by
  unfold classify
  constructor
  · intro h
    split_ifs at h with h1 h2 h3
    exact h2
  · rintro rfl
    decide

theorem classify_eq_dot (c : Nat) : classify c = Cls.dot ↔ c = DOT := by
  unfold classify
  constructor
  · intro h
    split_ifs at h with h1 h2 h3
    exact h3
  · rintro rfl
    decide

theorem classify_plain (c : Nat) :
    (classify c = Cls.dot ∨ classify c = Cls.other) ↔ (isSpace c = false ∧ c ≠ AT) := by
  unfold classify
  split_ifs with h1 h2 h3 <;> simp_all

theorem plainCls_map (x : JSString) : PlainCls (x.map classify) ↔ Plain x := by
  unfold PlainCls Plain
  simp only [ne_eq, List.map_eq_nil_iff, List.mem_map, forall_exists_index, and_imp,
    forall_apply_eq_imp_iff₂, classify_plain]

theorem testEmailPattern_iff (s : JSString) : testEmailPattern s = true ↔ RegexShape s := by
  unfold testEmailPattern RegexShape
  rw [emailPattern_rmatch]
  constructor
  · rintro ⟨l, a, b, h, hl, ha, hb⟩
    obtain ⟨l', r, rfl, rfl, hr⟩ := List.map_eq_append_iff.1 h
    obtain ⟨c, r', rfl, hc, hr'⟩ := List.map_eq_cons_iff.1 hr
    obtain ⟨a', r'', rfl, rfl, hr''⟩ := List.map_eq_append_iff.1 hr'
    obtain ⟨d, b', rfl, hd, rfl⟩ := List.map_eq_cons_iff.1 hr''
    rw [classify_eq_at] at hc
    rw [classify_eq_dot] at hd
    subst hc hd
    exact ⟨l', a', b', rfl, (plainCls_map _).1 hl, (plainCls_map _).1 ha, (plainCls_map _).1 hb⟩
  · rintro ⟨l, a, b, rfl, hl, ha, hb⟩
    refine ⟨l.map classify, a.map classify, b.map classify, ?_, (plainCls_map _).2 hl,
      (plainCls_map _).2 ha, (plainCls_map _).2 hb⟩
    simp [(classify_eq_at AT).2 rfl, (classify_eq_dot DOT).2 rfl]

theorem caseMap_expands {f : JSString → Nat → JSString → JSString} (hf : CaseTable f)
    (s : JSString) : ∀ before, Expands s (caseMap f before s) := by
  induction s with
  | nil => intro before; exact Expands.nil
  | cons c rest ih =>
    intro before
    unfold caseMap
    cases hc : isSpecial c with
    | true =>
      rw [(hf before c rest).1 hc]
      exact Expands.keep c _ _ hc (ih _)
    | false =>
      obtain ⟨h1, h2⟩ := (hf before c rest).2 hc
      exact Expands.grow c _ _ _ hc h1 h2 (ih _)

theorem isSpecial_false_iff (c : Nat) :
    isSpecial c = false ↔ isSpace c = false ∧ c ≠ AT ∧ c ≠ DOT := by
  unfold isSpecial
  simp [and_assoc]

theorem isSpecial_AT : isSpecial AT = true := by decide

theorem isSpecial_DOT : isSpecial DOT = true := by decide

theorem Expands.nil_iff {s t : JSString} (h : Expands s t) : s = [] ↔ t = [] := by
  cases h with
  | nil => simp
  | keep c s t hc hst => simp
  | grow c w s t hc hw hu hst => simp [hw]

theorem Expands.all_plain {s t : JSString} (h : Expands s t) :
    (∀ c ∈ s, isSpace c = false ∧ c ≠ AT) ↔ (∀ c ∈ t, isSpace c = false ∧ c ≠ AT) := by
  induction h with
  | nil => simp
  | keep c s t hc hst ih =>
    simp only [List.mem_cons, forall_eq_or_imp, ih]
  | grow c w s t hc hw hu hst ih =>
    have h1 : isSpace c = false ∧ c ≠ AT := by
      have := (isSpecial_false_iff c).1 hc
      exact ⟨this.1, this.2.1⟩
    have h2 : ∀ u ∈ w, isSpace u = false ∧ u ≠ AT := by
      intro u hu'
      have := (isSpecial_false_iff u).1 (hu u hu')
      exact ⟨this.1, this.2.1⟩
    simp only [List.mem_cons, forall_eq_or_imp, ih, List.mem_append]
    constructor
    · rintro ⟨-, h⟩ u (hu' | hu')
      · exact h2 u hu'
      · exact h u hu'
    · intro h
      exact ⟨h1, fun u hu' => h u (Or.inr hu')⟩

theorem Expands.plain_iff {s t : JSString} (h : Expands s t) : Plain s ↔ Plain t := by
  unfold Plain
  rw [h.all_plain, ne_eq, ne_eq, h.nil_iff]

theorem Expands.split_left {s t : JSString} (h : Expands s t) :
    ∀ s1 c s2, s = s1 ++ c :: s2 → isSpecial c = true →
      ∃ t1 t2, t = t1 ++ c :: t2 ∧ Expands s1 t1 ∧ Expands s2 t2 := by
  induction h with
  | nil => intro s1 c s2 h; simp at h
  | keep d s t hd hst ih =>
    intro s1 c s2 h hc
    cases s1 with
    | nil =>
      simp only [List.nil_append, List.cons.injEq] at h
      obtain ⟨rfl, rfl⟩ := h
      exact ⟨[], t, rfl, Expands.nil, hst⟩
    | cons x s1 =>
      simp only [List.cons_append, List.cons.injEq] at h
      obtain ⟨rfl, rfl⟩ := h
      obtain ⟨t1, t2, rfl, h1, h2⟩ := ih s1 c s2 rfl hc
      exact ⟨d :: t1, t2, rfl, Expands.keep _ _ _ hd h1, h2⟩
  | grow d w s t hd hw hu hst ih =>
    intro s1 c s2 h hc
    cases s1 with
    | nil =>
      simp only [List.nil_append, List.cons.injEq] at h
      obtain ⟨rfl, rfl⟩ := h
      rw [hc] at hd
      exact absurd hd (by simp)
    | cons x s1 =>
      simp only [List.cons_append, List.cons.injEq] at h
      obtain ⟨rfl, rfl⟩ := h
      obtain ⟨t1, t2, rfl, h1, h2⟩ := ih s1 c s2 rfl hc
      exact ⟨w ++ t1, t2, by simp, Expands.grow _ _ _ _ hd hw hu h1, h2⟩

theorem Expands.split_right {s t : JSString} (h : Expands s t) :
    ∀ t1 c t2, t = t1 ++ c :: t2 → isSpecial c = true →
      ∃ s1 s2, s = s1 ++ c :: s2 ∧ Expands s1 t1 ∧ Expands s2 t2 := by
  induction h with
  | nil => intro t1 c t2 h; simp at h
  | keep d s t hd hst ih =>
    intro t1 c t2 h hc
    cases t1 with
    | nil =>
      simp only [List.nil_append, List.cons.injEq] at h
      obtain ⟨rfl, rfl⟩ := h
      exact ⟨[], s, rfl, Expands.nil, hst⟩
    | cons x t1 =>
      simp only [List.cons_append, List.cons.injEq] at h
      obtain ⟨rfl, rfl⟩ := h
      obtain ⟨s1, s2, rfl, h1, h2⟩ := ih t1 c t2 rfl hc
      exact ⟨d :: s1, s2, rfl, Expands.keep _ _ _ hd h1, h2⟩
  | grow d w s t hd hw hu hst ih =>
    intro t1 c t2 h hc
    rcases List.append_eq_append_iff.1 h with ⟨a, rfl, rfl⟩ | ⟨r, rfl, h2⟩
    · obtain ⟨s1, s2, rfl, h1, h2⟩ := ih a c t2 rfl hc
      exact ⟨d :: s1, s2, rfl, Expands.grow _ _ _ _ hd hw hu h1, h2⟩
    · cases r with
      | nil =>
        simp only [List.nil_append] at h2
        obtain ⟨s1, s2, rfl, h1, h3⟩ := ih [] c t2 h2.symm hc
        refine ⟨d :: s1, s2, rfl, ?_, h3⟩
        have := Expands.grow d _ _ _ hd hw hu h1
        simpa using this
      | cons x r =>
        simp only [List.cons_append, List.cons.injEq] at h2
        obtain ⟨rfl, -⟩ := h2
        have := hu c (by simp)
        rw [hc] at this
        exact absurd this (by simp)

theorem Expands.regexShape_iff {s t : JSString} (h : Expands s t) :
    RegexShape s ↔ RegexShape t := by
  constructor
  · rintro ⟨l, a, b, rfl, hl, ha, hb⟩
    obtain ⟨l', r, rfl, h1, h2⟩ := h.split_left l AT _ rfl isSpecial_AT
    obtain ⟨a', b', rfl, h3, h4⟩ := h2.split_left a DOT _ rfl isSpecial_DOT
    exact ⟨l', a', b', rfl, h1.plain_iff.1 hl, h3.plain_iff.1 ha, h4.plain_iff.1 hb⟩
  · rintro ⟨l, a, b, rfl, hl, ha, hb⟩
    obtain ⟨l', r, rfl, h1, h2⟩ := h.split_right l AT _ rfl isSpecial_AT
    obtain ⟨a', b', rfl, h3, h4⟩ := h2.split_right a DOT _ rfl isSpecial_DOT
    exact ⟨l', a', b', rfl, h1.plain_iff.2 hl, h3.plain_iff.2 ha, h4.plain_iff.2 hb⟩

theorem regexShape_iff_emailShape (e : JSString) : RegexShape e ↔ EmailShape e := by
  constructor
  · rintro ⟨l, a, b, rfl, hl, ha, hb⟩
    have cl : l.count AT = 0 := List.count_eq_zero.2 fun h => (hl.2 AT h).2 rfl
    have ca : a.count AT = 0 := List.count_eq_zero.2 fun h => (ha.2 AT h).2 rfl
    have cb : b.count AT = 0 := List.count_eq_zero.2 fun h => (hb.2 AT h).2 rfl
    refine ⟨?_, ?_, l, _, rfl, hl.1, a, b, rfl, ha.1, hb.1⟩
    · intro c hc
      simp only [List.mem_append, List.mem_cons] at hc
      rcases hc with hc | rfl | hc | rfl | hc
      · exact (hl.2 c hc).1
      · decide
      · exact (ha.2 c hc).1
      · decide
      · exact (hb.2 c hc).1
    · have hne : (DOT == AT) = false := by decide
      simp [List.count_append, List.count_cons, cl, ca, cb, hne]
  · rintro ⟨hws, hcount, l, d, rfl, hl, a, b, rfl, ha, hb⟩
    have hne : (DOT == AT) = false := by decide
    simp only [List.count_append, List.count_cons, beq_self_eq_true, if_true, hne] at hcount
    simp only [List.mem_append, List.mem_cons] at hws
    have cl : l.count AT = 0 := by omega
    have ca : a.count AT = 0 := by omega
    have cb : b.count AT = 0 := by omega
    refine ⟨l, a, b, rfl, ⟨hl, ?_⟩, ⟨ha, ?_⟩, ⟨hb, ?_⟩⟩
    · intro c hc
      exact ⟨hws c (Or.inl hc), fun h => List.count_eq_zero.1 cl (h ▸ hc)⟩
    · intro c hc
      exact ⟨hws c (Or.inr (Or.inr (Or.inl hc))), fun h => List.count_eq_zero.1 ca (h ▸ hc)⟩
    · intro c hc
      exact ⟨hws c (Or.inr (Or.inr (Or.inr (Or.inr hc)))),
        fun h => List.count_eq_zero.1 cb (h ▸ hc)⟩

theorem asciiLower_caseTable : CaseTable asciiLower := by
  intro before c after
  unfold asciiLower
  constructor
  · intro h
    split_ifs with hc
    · exfalso
      obtain ⟨h1, h2⟩ := hc
      interval_cases c <;> exact absurd h (by decide)
    · rfl
  · intro h
    split_ifs with hc
    · refine ⟨by simp, ?_⟩
      intro u hu
      simp only [List.mem_singleton] at hu
      subst hu
      obtain ⟨h1, h2⟩ := hc
      interval_cases c <;> decide
    · exact ⟨by simp, by simpa using h⟩

theorem asciiUpper_caseTable : CaseTable asciiUpper := by
  intro before c after
  unfold asciiUpper
  constructor
  · intro h
    split_ifs with hc
    · exfalso
      obtain ⟨h1, h2⟩ := hc
      interval_cases c <;> exact absurd h (by decide)
    · rfl
  · intro h
    split_ifs with hc
    · refine ⟨by simp, ?_⟩
      intro u hu
      simp only [List.mem_singleton] at hu
      subst hu
      obtain ⟨h1, h2⟩ := hc
      interval_cases c <;> decide
    · exact ⟨by simp, by simpa using h⟩

theorem isValidEmail_iff_regexShape {lower : JSString → Nat → JSString → JSString}
    (hl : CaseTable lower) (e : JSString) : isValidEmail lower e = true ↔ RegexShape e := by
  unfold isValidEmail toLowerCase
  rw [testEmailPattern_iff]
  exact (caseMap_expands hl e []).regexShape_iff.symm

/-- C5: with a case-mapping table that leaves white space, `@` and `.` alone and
maps every other unit to a non-empty run of such units, `isValidEmail(e)` is true
exactly when `e` has no white space, exactly one `@`, at least one character
before it, and after it a `.` that is neither first nor last; and converting the
case of `e` (by any such table) does not change the result. -/
theorem isValidEmail_iff_emailShape (lower recase : JSString → Nat → JSString → JSString)
    (hl : CaseTable lower) (hr : CaseTable recase) (e : JSString) :
    (isValidEmail lower e = true ↔ EmailShape e) ∧
      isValidEmail lower (caseMap recase [] e) = isValidEmail lower e := by
  refine ⟨(isValidEmail_iff_regexShape hl e).trans (regexShape_iff_emailShape e), ?_⟩
  rw [Bool.eq_iff_iff, isValidEmail_iff_regexShape hl, isValidEmail_iff_regexShape hl]
  exact (caseMap_expands hr e []).regexShape_iff.symm

theorem isValidEmail_iff_emailShape_witness :
    CaseTable asciiLower ∧ CaseTable asciiUpper ∧
      ((isValidEmail asciiLower (str "User@Example.com") = true ↔
          EmailShape (str "User@Example.com")) ∧
        isValidEmail asciiLower (caseMap asciiUpper [] (str "User@Example.com")) =
          isValidEmail asciiLower (str "User@Example.com")) :=
  ⟨asciiLower_caseTable, asciiUpper_caseTable,
    isValidEmail_iff_emailShape asciiLower asciiUpper asciiLower_caseTable
      asciiUpper_caseTable (str "User@Example.com")⟩

/-- C1: on a page that has the form and its status region, a submission reports
only the first violated rule in the order name, email, message: an empty trimmed
name gives the name error (error colour, focus on the name field) whatever the
other fields hold; otherwise an empty or invalid trimmed email gives the email
error with focus on the email field; otherwise a trimmed message shorter than 10
gives the message error with focus on the message field. -/
theorem onSubmit_first_violation (h : Host) (p : Page) (f : Form) (st : StatusEl)
    (hf : p.form = some f) (hs : p.formStatus = some st) :
    (trim f.name.value = [] →
      (onSubmit h p).page.formStatus =
          some ⟨"Please enter your name.", "#ffb4a6", some "polite"⟩ ∧
        (onSubmit h p).page.focused = some Focus.nameField ∧
        (onSubmit h p).error = none) ∧
    (trim f.name.value ≠ [] →
      (trim f.email.value = [] ∨ isValidEmail h.lower (trim f.email.value) = false) →
      (onSubmit h p).page.formStatus =
          some ⟨"Please enter a valid email address.", "#ffb4a6", some "polite"⟩ ∧
        (onSubmit h p).page.focused = some Focus.emailField ∧
        (onSubmit h p).error = none) ∧
    (trim f.name.value ≠ [] → trim f.email.value ≠ [] →
      isValidEmail h.lower (trim f.email.value) = true →
      (trim f.message.value).length < 10 →
      (onSubmit h p).page.formStatus =
          some ⟨"Message must be at least 10 characters.", "#ffb4a6", some "polite"⟩ ∧
        (onSubmit h p).page.focused = some Focus.messageField ∧
        (onSubmit h p).error = none) := by
  refine ⟨?_, ?_, ?_⟩
  · intro hn
    simp [onSubmit, hf, hs, hn, setStatus, Outcome.andThen, Outcome.ok]
  · intro hn he
    have he' : ((trim f.email.value).isEmpty || !isValidEmail h.lower (trim f.email.value))
        = true := by
      rcases he with he | he <;> simp [he]
    simp [onSubmit, hf, hs, hn, he', setStatus, Outcome.andThen, Outcome.ok]
  · intro hn he hv hm
    simp [onSubmit, hf, hs, hn, he, hv, hm, setStatus, Outcome.andThen, Outcome.ok]

theorem onSubmit_first_violation_witness :
    ((onSubmit asciiHost (formPage "" "" "")).page.formStatus =
          some ⟨"Please enter your name.", "#ffb4a6", some "polite"⟩ ∧
        (onSubmit asciiHost (formPage "" "" "")).page.focused = some Focus.nameField ∧
        (onSubmit asciiHost (formPage "" "" "")).error = none) ∧
    ((onSubmit asciiHost (formPage "Ann" "ann@example" "")).page.formStatus =
          some ⟨"Please enter a valid email address.", "#ffb4a6", some "polite"⟩ ∧
        (onSubmit asciiHost (formPage "Ann" "ann@example" "")).page.focused =
          some Focus.emailField ∧
        (onSubmit asciiHost (formPage "Ann" "ann@example" "")).error = none) ∧
    ((onSubmit asciiHost (formPage "Ann" "ann@example.com" " too short ")).page.formStatus =
          some ⟨"Message must be at least 10 characters.", "#ffb4a6", some "polite"⟩ ∧
        (onSubmit asciiHost (formPage "Ann" "ann@example.com" " too short ")).page.focused =
          some Focus.messageField ∧
        (onSubmit asciiHost (formPage "Ann" "ann@example.com" " too short ")).error = none) :=
  ⟨(onSubmit_first_violation asciiHost (formPage "" "" "") _ _ rfl rfl).1 (by decide),
   (onSubmit_first_violation asciiHost (formPage "Ann" "ann@example" "") _ _ rfl rfl).2.1
      (by decide) (by decide),
   (onSubmit_first_violation asciiHost (formPage "Ann" "ann@example.com" " too short ")
      _ _ rfl rfl).2.2 (by decide) (by decide) (by decide) (by decide)⟩

/-- C2: on a page with the form, its status region and its submit button, and
with a non-empty trimmed name and a valid trimmed email, the submission moves to
the sending state exactly when the trimmed message has at least 10 code units,
and gets the message-length error exactly when it has fewer. -/
theorem onSubmit_message_boundary (h : Host) (p : Page) (f : Form) (st : StatusEl)
    (b : Button) (hf : p.form = some f) (hs : p.formStatus = some st)
    (hb : f.submitBtn = some b) (hn : trim f.name.value ≠ [])
    (he : trim f.email.value ≠ [])
    (hv : isValidEmail h.lower (trim f.email.value) = true) :
    ((onSubmit h p).page.formStatus =
          some ⟨"Sending message…", "var(--muted)", some "polite"⟩ ↔
        10 ≤ (trim f.message.value).length) ∧
    ((onSubmit h p).page.formStatus =
          some ⟨"Message must be at least 10 characters.", "#ffb4a6", some "polite"⟩ ↔
        (trim f.message.value).length < 10) := by
  by_cases hm : (trim f.message.value).length < 10
  · have hm' : ¬ 10 ≤ (trim f.message.value).length := by omega
    simp [onSubmit, hf, hs, hn, he, hv, hm, hm', setStatus, Outcome.andThen, Outcome.ok]
  · have hm' : 10 ≤ (trim f.message.value).length := by omega
    have hne : trim f.message.value ≠ [] := by
      intro h0
      rw [h0] at hm'
      simp at hm'
    simp [onSubmit, hf, hs, hb, hn, he, hv, hm, hm', hne, setStatus, Outcome.andThen,
      Outcome.ok]

theorem onSubmit_message_boundary_witness :
    (onSubmit asciiHost (formPage "Ann" "ann@example.com" "  123456789 ")).page.formStatus =
        some ⟨"Message must be at least 10 characters.", "#ffb4a6", some "polite"⟩ ∧
    (onSubmit asciiHost (formPage "Ann" "ann@example.com" "  1234567890 ")).page.formStatus =
        some ⟨"Sending message…", "var(--muted)", some "polite"⟩ :=
  ⟨(onSubmit_message_boundary asciiHost (formPage "Ann" "ann@example.com" "  123456789 ")
      _ _ _ rfl rfl rfl (by decide) (by decide) (by decide)).2.2 (by decide),
   (onSubmit_message_boundary asciiHost (formPage "Ann" "ann@example.com" "  1234567890 ")
      _ _ _ rfl rfl rfl (by decide) (by decide) (by decide)).1.2 (by decide)⟩

theorem mem_classRemove (cl : List String) (token t : String) :
    t ∈ classRemove cl token ↔ t ∈ cl ∧ t ≠ token := by
  simp [classRemove]

theorem mem_classToggle_self (cl : List String) (token : String) :
    token ∈ classToggle cl token ↔ token ∉ cl := by
  unfold classToggle
  split_ifs with h
  · simp [mem_classRemove, h]
  · simp [h]

theorem navToggleClick_consistent (n : Nav) (h : NavConsistent n) :
    NavConsistent (navToggleClick n) := by
  unfold NavConsistent at h ⊢
  unfold navToggleClick
  simp only [mem_classToggle_self, ← h]
  by_cases hx : n.ariaExpanded = some "true"
  · simp [hx, boolString]
  · simp [hx, boolString]

theorem navListClick_consistent (e : Click) (n : Nav) (h : NavConsistent n) :
    NavConsistent (navListClick e n) := by
  unfold navListClick
  split_ifs with hc
  · unfold NavConsistent
    simp [mem_classRemove]
  · exact h

theorem navStep_consistent (n : Nav) (op : NavOp) (h : NavConsistent n) :
    NavConsistent (navStep n op) := by
  cases op with
  | toggle => exact navToggleClick_consistent n h
  | listClick e => exact navListClick_consistent e n h

/-- C6: if `aria-expanded` of the toggle is `'true'` exactly when the nav list
has the class `open`, the same holds after every sequence of nav operations
(clicks on the toggle, clicks inside the list on any target). -/
theorem nav_consistent_preserved (ops : List NavOp) (n : Nav) (h : NavConsistent n) :
    NavConsistent (ops.foldl navStep n) := by
  induction ops generalizing n with
  | nil => exact h
  | cons op rest ih => exact ih _ (navStep_consistent n op h)

theorem nav_consistent_preserved_witness :
    NavConsistent ⟨some "false", ["menu"]⟩ ∧
      NavConsistent
        ([NavOp.toggle, NavOp.listClick ⟨⟨"A", some "#about"⟩, []⟩, NavOp.toggle].foldl
          navStep ⟨some "false", ["menu"]⟩) :=
  ⟨by unfold NavConsistent; decide,
    nav_consistent_preserved _ ⟨some "false", ["menu"]⟩ (by unfold NavConsistent; decide)⟩

theorem navToggleClick_aria (n : Nav) :
    (navToggleClick n).ariaExpanded = some "true" ↔ n.ariaExpanded ≠ some "true" := by
  unfold navToggleClick
  by_cases hx : n.ariaExpanded = some "true"
  · simp [hx, boolString]
  · simp [hx, boolString]

/-- C7: starting from the closed state (`aria-expanded` absent or `'false'`),
after exactly `N` clicks on the toggle `aria-expanded` is `'true'` exactly when
`N` is odd. -/
theorem navToggle_parity (N : Nat) (n : Nav)
    (h : n.ariaExpanded = none ∨ n.ariaExpanded = some "false") :
    (navToggleClick^[N] n).ariaExpanded = some "true" ↔ N % 2 = 1 := by
  have h0 : n.ariaExpanded ≠ some "true" := by
    rcases h with h | h <;> rw [h] <;> decide
  induction N with
  | zero => simp [h0]
  | succ k ih =>
    rw [Function.iterate_succ_apply', navToggleClick_aria, ne_eq, not_congr ih]
    omega

theorem navToggle_parity_witness :
    ((navToggleClick^[3] ⟨none, ["menu"]⟩).ariaExpanded = some "true" ↔ 3 % 2 = 1) ∧
      ((navToggleClick^[4] ⟨some "false", []⟩).ariaExpanded = some "true" ↔ 4 % 2 = 1) :=
  ⟨navToggle_parity 3 ⟨none, ["menu"]⟩ (Or.inl rfl),
    navToggle_parity 4 ⟨some "false", []⟩ (Or.inr rfl)⟩

theorem navListClick_link_target (e : Click) (n : Nav) (ht : e.target.tagName = "A")
    (ho : "open" ∈ n.classList) :
    (navListClick e n).ariaExpanded = some "false" ∧ "open" ∉ (navListClick e n).classList := by
  simp [navListClick, ht, ho, classContains, mem_classRemove]

theorem navListClick_closed (e : Click) (n : Nav) (ho : "open" ∉ n.classList) :
    navListClick e n = n := by
  simp [navListClick, ho, classContains]

/-- C8, the failing input: the list is open and the click lands on a `span`
inside a link of the list; the listener leaves the list open. -/
theorem navListClick_inside_link_stays_open :
    inLink ⟨⟨"SPAN", none⟩, [⟨"A", some "#services"⟩, ⟨"LI", none⟩, ⟨"UL", none⟩]⟩ = true ∧
      navListClick ⟨⟨"SPAN", none⟩, [⟨"A", some "#services"⟩, ⟨"LI", none⟩, ⟨"UL", none⟩]⟩
        ⟨some "true", ["nav-list", "open"]⟩ = ⟨some "true", ["nav-list", "open"]⟩ := by
  decide

/-! ## Smooth scroll: properties -/

theorem mem_classAdd (cl : List String) (token t : String) :
    t ∈ classAdd cl token ↔ t ∈ cl ∨ t = token := by
  unfold classAdd
  split_ifs with h
  · constructor
    · exact Or.inl
    · rintro (h1 | rfl)
      · exact h1
      · exact h
  · simp

theorem reveal_any (id t : Nat) (els : List RevealEl)
    (hv : els.any (fun el => el.id == id && classContains el.classList "is-visible") = true) :
    (reveal t els).any (fun el => el.id == id && classContains el.classList "is-visible")
      = true := by
  simp only [List.any_eq_true, Bool.and_eq_true, beq_iff_eq, classContains,
    decide_eq_true_eq, reveal, List.mem_map] at hv ⊢
  obtain ⟨el, hel, hid, hc⟩ := hv
  subst hid
  by_cases ht : el.id = t
  · refine ⟨_, ⟨el, hel, rfl⟩, ?_, ?_⟩ <;> simp [ht, mem_classAdd, hc]
  · refine ⟨_, ⟨el, hel, rfl⟩, ?_, ?_⟩ <;> simp [ht, hc]

theorem onEntry_visible (id : Nat) (p : Page) (en : Entry) (hv : visible id p = true) :
    visible id (onEntry p en) = true := by
  unfold onEntry
  split_ifs
  · exact reveal_any id en.target p.revealElements hv
  · exact hv

theorem onIntersect_visible (id : Nat) (entries : List Entry) (p : Page)
    (hv : visible id p = true) : visible id (onIntersect entries p) = true := by
  unfold onIntersect
  induction entries generalizing p with
  | nil => exact hv
  | cons en rest ih => exact ih _ (onEntry_visible id p en hv)

theorem onNav_revealElements (f : Nav → Nav) (p : Page) :
    (onNav f p).revealElements = p.revealElements := by
  unfold onNav
  split <;> rfl

theorem documentClick_revealElements (h : Host) (e : Click) (p : Page) :
    (documentClick h e p).page.revealElements = p.revealElements := by
  unfold documentClick
  split
  · rfl
  · split
    · rfl
    · split <;> rfl

theorem onSubmit_revealElements (h : Host) (p : Page) :
    (onSubmit h p).page.revealElements = p.revealElements := by
  unfold onSubmit
  cases hf : p.form with
  | none => rfl
  | some f =>
    cases hs : p.formStatus with
    | none => simp only [setStatus, hs, Outcome.andThen]; split_ifs <;> rfl
    | some st =>
      simp only [setStatus, hs, Outcome.andThen, Outcome.ok]
      split_ifs <;> first | rfl | (cases f.submitBtn <;> rfl)

theorem finishSend_revealElements (p : Page) :
    (finishSend p).page.revealElements = p.revealElements := by
  unfold finishSend
  cases hs : p.formStatus with
  | none => simp [setStatus, hs, Outcome.andThen]
  | some st =>
    simp only [setStatus, hs, Outcome.andThen, Outcome.ok]
    split
    · rfl
    · split <;> rfl

theorem onInput_revealElements (p : Page) :
    (onInput p).page.revealElements = p.revealElements := by
  unfold onInput
  split
  · rfl
  · split
    · rfl
    · split_ifs <;> rfl

theorem setFields_revealElements (a b c : JSString) (p : Page) :
    (setFields a b c p).revealElements = p.revealElements := by
  unfold setFields
  split <;> rfl

theorem dispatch_visible (h : Host) (id : Nat) (ev : Event) (p : Page)
    (hv : visible id p = true) : visible id (dispatch h ev p).page = true := by
  cases ev with
  | click e onToggle inNavList =>
    have : (dispatch h (Event.click e onToggle inNavList) p).page.revealElements
        = p.revealElements := by
      simp only [dispatch]
      rw [documentClick_revealElements]
      split <;> split <;> simp [onNav_revealElements]
    unfold visible at hv ⊢
    rw [this]
    exact hv
  | intersect entries =>
    simp only [dispatch]
    split
    · exact onIntersect_visible id entries p hv
    · exact hv
  | edit a b c =>
    unfold visible at hv ⊢
    simp only [dispatch]
    rw [onInput_revealElements, setFields_revealElements]
    exact hv
  | submit =>
    unfold visible at hv ⊢
    simp only [dispatch]
    rw [onSubmit_revealElements]
    exact hv
  | timer i =>
    unfold visible at hv ⊢
    simp only [dispatch]
    split
    · exact hv
    · rename_i t ht
      cases hta : t.action with
      | removeTabindex k => exact hv
      | finishSend =>
        simp only [runTimer]
        rw [finishSend_revealElements]
        exact hv

theorem run_visible (h : Host) (id : Nat) (evs : List Event) (p : Page)
    (hv : visible id p = true) : visible id (run h evs p) = true := by
  unfold run
  induction evs generalizing p with
  | nil => exact hv
  | cons ev rest ih => exact ih _ (dispatch_visible h id ev p hv)

theorem trace_visible_no_edge (h : Host) (id : Nat) (evs : List Event) (p : Page)
    (hv : visible id p = true) : risingEdges ((trace h evs p).map (visible id)) = 0 := by
  induction evs generalizing p with
  | nil => simp [trace, risingEdges]
  | cons ev rest ih =>
    have h1 := dispatch_visible h id ev p hv
    have h2 := ih _ h1
    cases rest with
    | nil =>
      simp only [trace, List.map_cons, List.map_nil, risingEdges, hv]
      simp
    | cons ev2 rest2 =>
      simp only [trace, List.map_cons, risingEdges, hv] at h2 ⊢
      simpa using h2

theorem trace_risingEdges_le_one (h : Host) (id : Nat) (evs : List Event) (p : Page) :
    risingEdges ((trace h evs p).map (visible id)) ≤ 1 := by
  induction evs generalizing p with
  | nil => simp [trace, risingEdges]
  | cons ev rest ih =>
    have h2 := ih (dispatch h ev p).page
    cases hq : visible id (dispatch h ev p).page with
    | true =>
      have h3 := trace_visible_no_edge h id rest _ hq
      cases rest with
      | nil =>
        simp only [trace, List.map_cons, List.map_nil, risingEdges]
        split_ifs <;> simp
      | cons ev2 rest2 =>
        simp only [trace, List.map_cons, risingEdges] at h3 ⊢
        split_ifs <;> omega
    | false =>
      cases rest with
      | nil =>
        simp only [trace, List.map_cons, List.map_nil, risingEdges, hq]
        simp
      | cons ev2 rest2 =>
        simp only [trace, List.map_cons, risingEdges, hq] at h2 ⊢
        simpa using h2

theorem navStep_keeps_class (n : Nav) (op : NavOp) (t : String) (ht : t ≠ "open")
    (hm : t ∈ n.classList) : t ∈ (navStep n op).classList := by
  cases op with
  | toggle =>
    simp only [navStep, navToggleClick, classToggle]
    split_ifs
    · exact (mem_classRemove _ _ _).2 ⟨hm, ht⟩
    · exact List.mem_append_left _ hm
  | listClick e =>
    simp only [navStep, navListClick]
    split_ifs
    · exact (mem_classRemove _ _ _).2 ⟨hm, ht⟩
    · exact hm

theorem nav_keeps_visible (ops : List NavOp) (n : Nav) (hm : "is-visible" ∈ n.classList) :
    "is-visible" ∈ (ops.foldl navStep n).classList := by
  induction ops generalizing n with
  | nil => exact hm
  | cons op rest ih => exact ih _ (navStep_keeps_class n op "is-visible" (by decide) hm)

theorem onEntry_unobserved (id : Nat) (p : Page) (en : Entry) (hn : id ∉ p.observed) :
    id ∉ (onEntry p en).observed := by
  unfold onEntry
  split_ifs
  · simp [hn]
  · exact hn

theorem onEntry_keeps_id (id : Nat) (p : Page) (en : Entry)
    (hx : ∃ el ∈ p.revealElements, el.id = id) :
    ∃ el ∈ (onEntry p en).revealElements, el.id = id := by
  unfold onEntry
  split_ifs
  · obtain ⟨el, hel, hid⟩ := hx
    subst hid
    simp only [reveal, List.mem_map]
    by_cases ht : el.id = en.target
    · exact ⟨_, ⟨el, hel, rfl⟩, by simp [ht]⟩
    · exact ⟨_, ⟨el, hel, rfl⟩, by simp [ht]⟩
  · exact hx

theorem onEntry_reveals (p : Page) (en : Entry) (hi : en.isIntersecting = true)
    (hx : ∃ el ∈ p.revealElements, el.id = en.target) :
    visible en.target (onEntry p en) = true ∧ en.target ∉ (onEntry p en).observed := by
  obtain ⟨el, hel, hid⟩ := hx
  unfold onEntry
  simp only [hi, if_true]
  constructor
  · simp only [visible, List.any_eq_true, Bool.and_eq_true, beq_iff_eq, classContains,
      decide_eq_true_eq, reveal, List.mem_map]
    refine ⟨_, ⟨el, hel, rfl⟩, ?_, ?_⟩ <;> simp [hid, mem_classAdd]
  · simp

theorem onIntersect_reveals (id : Nat) (entries : List Entry) (p : Page)
    (hx : ∃ el ∈ p.revealElements, el.id = id) (he : (⟨id, true⟩ : Entry) ∈ entries) :
    visible id (onIntersect entries p) = true ∧ id ∉ (onIntersect entries p).observed := by
  unfold onIntersect
  induction entries generalizing p with
  | nil => simp at he
  | cons en rest ih =>
    rw [List.foldl_cons]
    rcases List.mem_cons.1 he with h1 | h1
    · subst h1
      obtain ⟨k1, k2⟩ := onEntry_reveals p ⟨id, true⟩ rfl hx
      clear ih he
      generalize onEntry p ⟨id, true⟩ = q at k1 k2
      induction rest generalizing q with
      | nil => exact ⟨k1, k2⟩
      | cons en2 rest2 ih2 =>
        rw [List.foldl_cons]
        exact ih2 _ (onEntry_visible id q en2 k1) (onEntry_unobserved id q en2 k2)
    · exact ih _ (onEntry_keeps_id id p en hx) h1

theorem init_fallback (h : Host) (p : Page) (hio : p.hasIntersectionObserver = false) :
    (∀ el ∈ p.revealElements, visible el.id (init h p) = true) ∧
      (init h p).observerCreated = p.observerCreated ∧ (init h p).observed = p.observed := by
  have hr : (init h p).revealElements = p.revealElements.map (fun el =>
      { el with classList := classAdd el.classList "is-visible" }) := by
    simp only [init, initYear, initReveal, hio]
    split <;> simp
  refine ⟨?_, ?_, ?_⟩
  · intro el hel
    unfold visible
    rw [hr]
    simp only [List.any_eq_true, Bool.and_eq_true, beq_iff_eq, classContains,
      decide_eq_true_eq, List.mem_map]
    exact ⟨_, ⟨el, hel, rfl⟩, rfl, by simp [mem_classAdd]⟩
  · simp only [init, initYear, initReveal, hio]
    split <;> simp
  · simp only [init, initYear, initReveal, hio]
    split <;> simp

/-- C10: an element that carries `is-visible` keeps it through every sequence
of events, so along any run it goes from unrevealed to revealed at most once;
the nav listeners never take `is-visible` off the nav list either.  A callback
whose entries report the reveal-flagged element `id` as intersecting leaves it
with `is-visible` and no longer observed.  Without `IntersectionObserver` the
script body gives `is-visible` to every reveal-flagged element and creates and
observes nothing. -/
theorem reveal_once (h : Host) (p : Page) (id : Nat) (evs : List Event)
    (entries : List Entry) (ops : List NavOp) (n : Nav) :
    (visible id p = true → visible id (run h evs p) = true) ∧
    risingEdges ((trace h evs p).map (visible id)) ≤ 1 ∧
    ("is-visible" ∈ n.classList → "is-visible" ∈ (ops.foldl navStep n).classList) ∧
    ((∃ el ∈ p.revealElements, el.id = id) → (⟨id, true⟩ : Entry) ∈ entries →
      visible id (onIntersect entries p) = true ∧ id ∉ (onIntersect entries p).observed) ∧
    (p.hasIntersectionObserver = false →
      (∀ el ∈ p.revealElements, visible el.id (init h p) = true) ∧
        (init h p).observerCreated = p.observerCreated ∧
        (init h p).observed = p.observed) :=
  ⟨run_visible h id evs p, trace_risingEdges_le_one h id evs p, nav_keeps_visible ops n,
    onIntersect_reveals id entries p, init_fallback h p⟩

theorem reveal_once_witness :
    visible 2 (run asciiHost [Event.intersect [⟨2, false⟩], Event.submit]
        (init asciiHost (revealPage true))) = true ∧
    visible 1 (onIntersect [⟨2, false⟩, ⟨1, true⟩] (init asciiHost (revealPage true)))
        = true ∧
    1 ∉ (onIntersect [⟨2, false⟩, ⟨1, true⟩] (init asciiHost (revealPage true))).observed ∧
    visible 1 (init asciiHost (revealPage false)) = true ∧
    (init asciiHost (revealPage false)).observerCreated = false ∧
    "is-visible" ∈ ([NavOp.toggle, NavOp.toggle].foldl navStep
        ⟨none, ["open", "is-visible"]⟩).classList :=
  have w := reveal_once asciiHost (init asciiHost (revealPage true)) 2
    [Event.intersect [⟨2, false⟩], Event.submit] [] [NavOp.toggle, NavOp.toggle]
    ⟨none, ["open", "is-visible"]⟩
  have w1 := (reveal_once asciiHost (init asciiHost (revealPage true)) 1 []
    [⟨2, false⟩, ⟨1, true⟩] [] ⟨none, []⟩).2.2.2.1 (by decide) (by decide)
  have w2 := (reveal_once asciiHost (revealPage false) 1 [] [] [] ⟨none, []⟩).2.2.2.2 rfl
  ⟨w.1 (by decide), w1.1, w1.2, w2.1 ⟨1, ["card"]⟩ (by decide), w2.2.1, w.2.2.1 (by decide)⟩

/-! ## Missing elements -/

theorem init_total (h : Host) (p : Page) :
    (init h p).form = p.form ∧ (init h p).formStatus = p.formStatus ∧
      (init h p).navToggle = p.navToggle ∧ (init h p).navList = p.navList := by
  simp only [init, initYear, initReveal]
  split <;> split <;> simp

theorem dispatch_without_form (h : Host) (p : Page) (hf : p.form = none) :
    (dispatch h Event.submit p).error = none ∧
      ∀ a b c, (dispatch h (Event.edit a b c) p).error = none := by
  constructor
  · simp [dispatch, onSubmit, hf, Outcome.ok]
  · intro a b c
    simp [dispatch, onInput, setFields, hf, Outcome.ok]

/-- C3, the failing inputs: on a page that has `#contact-form` but no
`#form-status`, the submit listener ends with a `TypeError` (for any field
values, here all empty), and so does the input listener; on a page that has the
form and the status region but no submit button, an accepted submission ends
with a `TypeError` after the status was set to "Sending message…". -/
theorem submit_missing_element_throws :
    (dispatch asciiHost Event.submit
        (init asciiHost (markup none none [] false
          (some ⟨emptyField, emptyField, emptyField, some ⟨false, "Send Message"⟩⟩)
          none none))).error = some JSError.typeError ∧
    (dispatch asciiHost (Event.edit (str "A") [] [])
        (init asciiHost (markup none none [] false
          (some ⟨emptyField, emptyField, emptyField, some ⟨false, "Send Message"⟩⟩)
          none none))).error = some JSError.typeError ∧
    (dispatch asciiHost Event.submit
        (init asciiHost (markup none none [] false
          (some ⟨⟨str "Ann", []⟩, ⟨str "user@example.com", []⟩, ⟨str "Hello there", []⟩, none⟩)
          (some ⟨"", "", none⟩) none))).error = some JSError.typeError ∧
    ((dispatch asciiHost Event.submit
        (init asciiHost (markup none none [] false
          (some ⟨⟨str "Ann", []⟩, ⟨str "user@example.com", []⟩, ⟨str "Hello there", []⟩, none⟩)
          (some ⟨"", "", none⟩) none))).page.formStatus.map fun st => st.textContent) =
      some "Sending message…" := by
  decide

end LandingPage
